import Mathlib

/-!
Verification development for QuickFileCreator.

Shallow embedding of the two core modules:

* `file_creator.py` — name classification (`has_extension`), name legality
  (`is_valid_name`) and entry creation (`create_item`).  The filesystem is
  modelled as an explicit state (`FS`): a finite association list from paths
  (component lists) to entry kinds, together with a fault table `deny` that
  records which paths raise which exception when a creation is attempted
  there (modelling `PermissionError` and other `OSError`s).
* `explorer.py` — the active-directory resolver (`get_explorer_path`,
  `get_all_explorer_windows`, `get_desktop_path`, `get_current_path`).
  The OS/COM surface is modelled as an environment record (`Env`): the
  foreground window handle, the process-executable lookup, the
  `Shell.Application.Windows()` collection and the `EnumWindows` table.
  Calls that may raise a COM error are `Except Unit`-valued.
-/

/-! ## Python string primitives

Faithful list-of-characters models of the Python string operations the
source uses (`str.strip`, `str.replace`, `urllib.parse.unquote`,
substring containment via `in`, `str.lower`). -/

/-- Whitespace as stripped by Python `str.strip()` (no arguments). -/
def isSpaceChar (c : Char) : Bool := c.isWhitespace

/-- Model of Python `str.strip()`: remove leading and trailing whitespace. -/
def pyStrip (s : String) : String :=
  String.mk (((s.data.dropWhile isSpaceChar).reverse.dropWhile isSpaceChar).reverse)

/-- Substring containment on character lists, modelling Python `pat in s`
(the empty pattern is contained in every string). -/
def containsSubL (s pat : List Char) : Bool :=
  if pat.isPrefixOf s then true
  else
    match s with
    | [] => false
    | _ :: t => containsSubL t pat

/-- Fuel-driven worker for `replaceL`; the fuel `s.length` suffices because
each step consumes at least one character of a non-empty pattern. -/
def replaceAux (fuel : Nat) (s pat rep : List Char) : List Char :=
  match fuel with
  | 0 => s
  | fuel1 + 1 =>
    match s with
    | [] => []
    | c :: rest =>
      if pat.isPrefixOf (c :: rest) then
        rep ++ replaceAux fuel1 ((c :: rest).drop pat.length) pat rep
      else
        c :: replaceAux fuel1 rest pat rep

/-- Model of Python `s.replace(pat, rep)` for a non-empty pattern:
left-to-right, non-overlapping replacement of every occurrence.
(The source only ever replaces the non-empty patterns `"file:///"`
and `"/"`.) -/
def replaceL (s pat rep : List Char) : List Char :=
  if pat.isEmpty then s else replaceAux s.length s pat rep

/-- Hexadecimal digit test, as accepted by `urllib.parse.unquote`. -/
def isHexDigitChar (c : Char) : Bool :=
  c.isDigit || ('a' ≤ c && c ≤ 'f') || ('A' ≤ c && c ≤ 'F')

/-- Value of a hexadecimal digit. -/
def hexVal (c : Char) : Nat :=
  if c.isDigit then c.toNat - '0'.toNat
  else if 'a' ≤ c && c ≤ 'f' then c.toNat - 'a'.toNat + 10
  else c.toNat - 'A'.toNat + 10

/-- Model of `urllib.parse.unquote` restricted to single-byte percent
escapes: each valid `%XX` pair becomes the character with code `XX`,
invalid escapes are left untouched.  (Multi-byte UTF-8 escape sequences
are outside the fragment the claims exercise.) -/
def unquoteL (l : List Char) : List Char :=
  match l with
  | '%' :: a :: b :: rest =>
    if isHexDigitChar a && isHexDigitChar b then
      Char.ofNat (16 * hexVal a + hexVal b) :: unquoteL rest
    else
      '%' :: unquoteL (a :: b :: rest)
  | c :: rest => c :: unquoteL rest
  | [] => []

/-! ## NameClassifier (`file_creator.py`) -/

/-- `has_extension(name)` from `file_creator.py`:
`'.' in name and not name.endswith('.') and not name.startswith('.')`.
`endswith('.')` holds exactly when `['.']` is a suffix of the characters,
`startswith('.')` exactly when it is a prefix. -/
def has_extension (name : String) : Bool :=
  name.data.contains '.' && !(['.'].isSuffixOf name.data) && !(['.'].isPrefixOf name.data)

/-- The reserved characters of `is_valid_name`, in the scan order of the
source: `invalid_chars = '<>:"/\\|?*'`. -/
def invalid_chars : List Char := ['<', '>', ':', '"', '/', '\\', '|', '?', '*']

/-- The `for char in invalid_chars: if char in name: return ...` loop of
`is_valid_name`: the first character of `cs` that occurs anywhere in
`name`. -/
def firstInvalid (cs : List Char) (name : String) : Option Char :=
  match cs with
  | [] => none
  | c :: rest => if name.data.contains c then some c else firstInvalid rest name

/-- `is_valid_name(name)` from `file_creator.py`.  The Python function
returns `(True, None)` or `(False, "名称包含非法字符: <c>")`; the model
returns the reported character itself in place of the formatted message. -/
def is_valid_name (name : String) : Bool × Option Char :=
  match firstInvalid invalid_chars name with
  | some c => (false, some c)
  | none => (true, none)

/-- Position of a character in a scan list (0-based); used to state in
which order `is_valid_name` examines the reserved characters. -/
def rankIn (cs : List Char) (c : Char) : Nat :=
  match cs with
  | [] => 0
  | d :: rest => if c = d then 0 else rankIn rest c + 1

/-! ## Filesystem model and EntryCreator (`file_creator.py`) -/

/-- A filesystem path, as the list of its components.
`Path(base_path) / name` becomes `base ++ parseName name`. -/
abbrev FsPath := List String

/-- Kind of an existing filesystem entry. -/
inductive EntryKind
  | file
  | dir
deriving DecidableEq

/-- The exceptions `create_item` distinguishes: `PermissionError`, and
every other `Exception e` (carrying `str(e)`). -/
inductive PyErr
  | permError
  | otherError (msg : String)
deriving DecidableEq

/-- Filesystem state: the existing entries, plus a fault table giving the
exception (if any) raised when creation of a given path is attempted. -/
structure FS where
  entries : List (FsPath × EntryKind)
  deny : List (FsPath × PyErr)
deriving DecidableEq

/-- What exists at path `p` (`Path.exists` / `is_dir` oracle). -/
def lookupFS (fs : FS) (p : FsPath) : Option EntryKind :=
  (fs.entries.find? (fun e => e.1 == p)).map (fun e => e.2)

/-- The exception creating `p` would raise, if any. -/
def denyOf (fs : FS) (p : FsPath) : Option PyErr :=
  (fs.deny.find? (fun e => e.1 == p)).map (fun e => e.2)

/-- Record a newly created entry. -/
def insertEntry (fs : FS) (p : FsPath) (k : EntryKind) : FS :=
  ⟨(p, k) :: fs.entries, fs.deny⟩

/-- `full_path.exists()`. -/
def existsFS (fs : FS) (p : FsPath) : Bool := (lookupFS fs p).isSome

/-- One `os.mkdir`-level step with `exist_ok` semantics (both call sites
of the source pass `exist_ok=True`): an existing directory is fine, an
existing file raises `FileExistsError`, a missing path is created unless
the fault table says the attempt raises. -/
def mkdirOne (fs : FS) (p : FsPath) : FS × Option PyErr :=
  match lookupFS fs p with
  | some EntryKind.dir => (fs, none)
  | some EntryKind.file => (fs, some (PyErr.otherError "FileExistsError"))
  | none =>
    match denyOf fs p with
    | some e => (fs, some e)
    | none => (insertEntry fs p EntryKind.dir, none)

/-- Create the listed paths in order, stopping at the first failure.
Entries created before the failure remain — exactly as the per-directory
`os.mkdir` calls behind `Path.mkdir(parents=True)` behave. -/
def mkdirList (fs : FS) (ps : List FsPath) : FS × Option PyErr :=
  match ps with
  | [] => (fs, none)
  | p :: rest =>
    match mkdirOne fs p with
    | (fs1, none) => mkdirList fs1 rest
    | (fs1, some e) => (fs1, some e)

/-- The strict non-empty prefixes of `p`, shortest first: the ancestor
directories `Path.mkdir(parents=True)` creates on the way to `p`. -/
def ancestors (p : FsPath) : List FsPath :=
  (List.range (p.length - 1)).map (fun i => p.take (i + 1))

/-- `p.mkdir(parents=True, exist_ok=True)`: create the missing ancestors
top-down, then `p` itself. -/
def mkdirParents (fs : FS) (p : FsPath) : FS × Option PyErr :=
  mkdirList fs (ancestors p ++ [p])

/-- `full_path.touch()`: a no-op on an existing entry (`exist_ok=True`
default), otherwise creates an empty file unless the attempt raises. -/
def touchFS (fs : FS) (p : FsPath) : FS × Option PyErr :=
  match lookupFS fs p with
  | some _ => (fs, none)
  | none =>
    match denyOf fs p with
    | some e => (fs, some e)
    | none => (insertEntry fs p EntryKind.file, none)

/-- Path separators recognised by `pathlib` on Windows. -/
def isSepChar (c : Char) : Bool := c = '/' || c = '\\'

/-- Split a character list at separators (worker for `parseName`). -/
def splitSepsAux (l : List Char) (acc : List Char) : List (List Char) :=
  match l with
  | [] => [acc.reverse]
  | c :: rest =>
    if isSepChar c then acc.reverse :: splitSepsAux rest []
    else splitSepsAux rest (c :: acc)

/-- Components of a relative name string, as `pathlib` parses it:
split at `/` and `\`, dropping empty segments. -/
def parseName (s : String) : FsPath :=
  ((splitSepsAux s.data []).filter (fun seg => !seg.isEmpty)).map String.mk

/-- `Path(base_path) / name` for a relative `name`. -/
def joinPath (base : FsPath) (name : String) : FsPath := base ++ parseName name

/-- Message `"名称不能为空"`. -/
def emptyMsg : String := "名称不能为空"

/-- Message `"'<name>' 已存在"`. -/
def existsMsg (name : String) : String := "'" ++ name ++ "' 已存在"

/-- Message `"文件 '<name>' 创建成功"`. -/
def fileOkMsg (name : String) : String := "文件 '" ++ name ++ "' 创建成功"

/-- Message `"文件夹 '<name>' 创建成功"`. -/
def dirOkMsg (name : String) : String := "文件夹 '" ++ name ++ "' 创建成功"

/-- Message `"没有权限在当前位置创建"`. -/
def permMsg : String := "没有权限在当前位置创建"

/-- Message `"创建失败: <detail>"`. -/
def failMsg (detail : String) : String := "创建失败: " ++ detail

/-- The `except` clauses of `create_item`: `PermissionError` gets the
dedicated message, everything else the catch-all. -/
def errOutcome (e : PyErr) : Bool × String :=
  match e with
  | PyErr.permError => (false, permMsg)
  | PyErr.otherError m => (false, failMsg m)

/-- `create_item(base_path, name)` from `file_creator.py`, with the
filesystem state passed explicitly.  Steps, as in the source: reject the
empty/whitespace name; strip; build the full path; reject an existing
entry; then either `parent.mkdir(parents=True, exist_ok=True)` followed
by `touch()` (extension present) or `mkdir(parents=True, exist_ok=True)`
(no extension), mapping exceptions to the two failure messages. -/
def create_item (fs : FS) (base : FsPath) (name : String) : FS × Bool × String :=
  if pyStrip name = "" then (fs, false, emptyMsg)
  else
    let name1 := pyStrip name
    let full := joinPath base name1
    if existsFS fs full then (fs, false, existsMsg name1)
    else if has_extension name1 then
      match (mkdirParents fs full.dropLast).2 with
      | some e => ((mkdirParents fs full.dropLast).1, errOutcome e)
      | none =>
        match (touchFS (mkdirParents fs full.dropLast).1 full).2 with
        | some e => ((touchFS (mkdirParents fs full.dropLast).1 full).1, errOutcome e)
        | none => ((touchFS (mkdirParents fs full.dropLast).1 full).1, true, fileOkMsg name1)
    else
      match (mkdirParents fs full).2 with
      | some e => ((mkdirParents fs full).1, errOutcome e)
      | none => ((mkdirParents fs full).1, true, dirOkMsg name1)

/-! ## ActiveDirectoryResolver (`explorer.py`) -/

/-- One entry of the `Shell.Application.Windows()` collection: a window
handle plus its `LocationURL`. -/
structure ShellWindow where
  hwnd : Nat
  locationURL : String

/-- One top-level window as seen by `EnumWindows`: handle, visibility,
window class name. -/
structure TopWin where
  hwnd : Nat
  visible : Bool
  className : String

/-- The OS/COM environment of one resolution call.  `processPathOf`
bundles `GetWindowThreadProcessId` + `OpenProcess` +
`GetModuleFileNameEx` (any of which may raise, hence `Except`);
`shellWindows` is the `Shell.Application.Windows()` collection (the
`Dispatch` or the enumeration may raise); `home` and `isdir` model
`os.path.expanduser` and `os.path.isdir`. -/
structure Env where
  foreground : Nat
  processPathOf : Nat → Except Unit String
  shellWindows : Except Unit (List ShellWindow)
  topWindows : List TopWin
  home : String
  isdir : String → Bool

/-- `location_url.replace("file:///", "")`, percent-decoding, and
`"/"` → `"\\"` — the location post-processing of `get_explorer_path`. -/
def processURL (url : String) : String :=
  String.mk ((unquoteL (replaceL url.data "file:///".data [])).map
    (fun c => if c = '/' then '\\' else c))

/-- `"explorer.exe" in path.lower()`. -/
def explorerSub (path : String) : Bool :=
  containsSubL (path.data.map Char.toLower) "explorer.exe".data

/-- The `for i in range(windows.Count): if window.HWND == hwnd` scan:
location of the first shell window whose handle matches. -/
def findLocation (ws : List ShellWindow) (h : Nat) : Option String :=
  (ws.find? (fun w => w.hwnd == h)).map (fun w => processURL w.locationURL)

/-- `get_all_explorer_windows()` from `explorer.py`: visible top-level
windows whose class is `CabinetWClass` or `ExploreWClass`, in enumeration
order. -/
def get_all_explorer_windows (env : Env) : List Nat :=
  (env.topWindows.filter
    (fun w => w.visible && (w.className == "CabinetWClass" || w.className == "ExploreWClass"))).map
    TopWin.hwnd

/-- The step-3 loop of `get_explorer_path`: for each explorer window
handle, dispatch `Shell.Application` (which may raise) and look the
handle up in the collection; the first hit wins. -/
def step3Loop (env : Env) (hs : List Nat) : Except Unit (Option String) :=
  match hs with
  | [] => Except.ok none
  | h :: rest =>
    match env.shellWindows with
    | Except.error e => Except.error e
    | Except.ok ws =>
      match findLocation ws h with
      | some l => Except.ok (some l)
      | none => step3Loop env rest

/-- Step 3 of `get_explorer_path`: scan every explorer-class window. -/
def step3Scan (env : Env) : Except Unit (Option String) :=
  step3Loop env (get_all_explorer_windows env)

/-- The body of the single `try:` block of `get_explorer_path`: steps 1–2
(foreground fast path) and, when they yield nothing, step 3.  Any raised
error propagates out of the whole body. -/
def explorerBody (env : Env) : Except Unit (Option String) :=
  match env.processPathOf env.foreground with
  | Except.error e => Except.error e
  | Except.ok path =>
    if explorerSub path then
      match env.shellWindows with
      | Except.error e => Except.error e
      | Except.ok ws =>
        match findLocation ws env.foreground with
        | some l => Except.ok (some l)
        | none => step3Scan env
    else step3Scan env

/-- `get_explorer_path()` from `explorer.py`: the whole body runs inside
one `try: ... except Exception: return None`. -/
def get_explorer_path (env : Env) : Option String :=
  match explorerBody env with
  | Except.ok r => r
  | Except.error _ => none

/-- `os.path.join` on Windows for a relative second argument. -/
def ntJoin (a b : String) : String :=
  if a = "" then b
  else if a.endsWith "\\" || a.endsWith "/" || a.endsWith ":" then a ++ b
  else a ++ "\\" ++ b

/-- `get_desktop_path()` from `explorer.py`:
`os.path.join(os.path.expanduser('~'), 'Desktop')`. -/
def get_desktop_path (home : String) : String := ntJoin home "Desktop"

/-- `get_current_path()` from `explorer.py`: the resolver's answer if it
is a non-empty string naming an existing directory
(`if path and os.path.isdir(path)`), the desktop path otherwise. -/
def get_current_path (env : Env) : String :=
  match get_explorer_path env with
  | some p => if (!(p == "")) && env.isdir p then p else get_desktop_path env.home
  | none => get_desktop_path env.home

/-! ## Concrete instances used by witnesses and counterexamples -/

/-- Filesystem for the C6 witness: `d/x.txt` already exists. -/
def fsC6 : FS := ⟨[(["d", "x.txt"], EntryKind.file)], []⟩

/-- Filesystem for the C7 counterexample: empty, but creating
`a/b.txt` raises `PermissionError` while creating `a` succeeds. -/
def fsC7 : FS := ⟨[], [(["a", "b.txt"], PyErr.permError)]⟩

/-- Empty filesystem with no faults. -/
def fsFree : FS := ⟨[], []⟩

/-- Filesystem for the C10 counterexample: the intermediate component
`a` exists as a *file*. -/
def fsC10 : FS := ⟨[(["a"], EntryKind.file)], []⟩

/-- Environment for the C3 counterexample: querying the foreground
window's process raises, while a background explorer window with a
resolvable location exists. -/
def envC3 : Env :=
  ⟨1, fun _ => Except.error (), Except.ok [⟨2, "file:///C:/x"⟩],
   [⟨2, true, "CabinetWClass"⟩], "C:\\Users\\u", fun _ => true⟩

/-- Environment whose shell-window collection raises. -/
def envC3b : Env :=
  ⟨1, fun _ => Except.ok "C:\\Windows\\explorer.exe", Except.error (),
   [⟨2, true, "CabinetWClass"⟩], "C:\\Users\\u", fun _ => true⟩

/-- Environment for the C4 witness: foreground belongs to a
non-file-manager process, one background explorer window exists. -/
def envC4 : Env :=
  ⟨1, fun _ => Except.ok "C:\\apps\\other.exe",
   Except.ok [⟨2, "file:///C:/Users/u/Docs"⟩],
   [⟨2, true, "CabinetWClass"⟩], "C:\\Users\\u", fun _ => true⟩

/-- Environment for the C5 witness: zero file-manager windows anywhere. -/
def envC5 : Env :=
  ⟨1, fun _ => Except.ok "C:\\apps\\other.exe", Except.ok [], [],
   "C:\\Users\\u", fun _ => false⟩

/-! ## Helper lemmas -/

/-- A one-character list is a prefix exactly when the head matches. -/
theorem prefix_dot_iff (l : List Char) :
    (['.'].isPrefixOf l) = true ↔ l.head? = some '.' := by
  cases l with
  | nil => simp [List.isPrefixOf]
  | cons c t =>
    simp only [List.isPrefixOf, Bool.and_true, beq_iff_eq, List.head?_cons,
      Option.some.injEq]
    exact eq_comm

/-- A one-character list is a suffix exactly when the last element matches. -/
theorem suffix_dot_iff (l : List Char) :
    (['.'].isSuffixOf l) = true ↔ l.getLast? = some '.' := by
  rw [List.isSuffixOf]
  have h1 : (['.'] : List Char).reverse = ['.'] := rfl
  rw [h1, prefix_dot_iff, List.head?_reverse]

/-- If the scan loop finds nothing, no character of the scan list occurs
in the name. -/
theorem firstInvalid_eq_none (cs : List Char) (name : String) :
    firstInvalid cs name = none ↔ ∀ c ∈ cs, c ∉ name.data := by
  induction cs with
  | nil => simp [firstInvalid]
  | cons a rest ih =>
    by_cases ha : name.data.contains a = true
    · simp only [firstInvalid, if_pos ha]
      constructor
      · intro h; exact absurd h (by simp)
      · intro h
        exact absurd (List.elem_iff.mp ha) (h a (List.mem_cons_self a rest))
    · simp only [firstInvalid, if_neg ha, ih]
      constructor
      · intro h c hc
        rcases List.mem_cons.mp hc with h1 | h1
        · subst h1; exact fun hm => ha (List.elem_iff.mpr hm)
        · exact h c h1
      · intro h c hc
        exact h c (List.mem_cons_of_mem a hc)

/-- If the scan loop reports `c`, then `c` is a scan character occurring in
the name, and no scan character occurring in the name comes earlier in the
scan list. -/
theorem firstInvalid_eq_some (cs : List Char) (name : String) (c : Char)
    (h : firstInvalid cs name = some c) :
    c ∈ cs ∧ c ∈ name.data ∧
      ∀ d ∈ cs, d ∈ name.data → rankIn cs c ≤ rankIn cs d := by
  induction cs with
  | nil => exact absurd h (by simp [firstInvalid])
  | cons a rest ih =>
    by_cases ha : name.data.contains a = true
    · rw [firstInvalid, if_pos ha] at h
      have hc : c = a := by injection h with h1; exact h1.symm
      subst hc
      refine ⟨List.mem_cons_self c rest, List.elem_iff.mp ha, ?_⟩
      intro d _ _
      simp [rankIn]
    · rw [firstInvalid, if_neg ha] at h
      obtain ⟨h1, h2, h3⟩ := ih h
      have hca : c ≠ a := by
        intro he; subst he
        exact ha (List.elem_iff.mpr h2)
      refine ⟨List.mem_cons_of_mem a h1, h2, ?_⟩
      intro d hd hdn
      have hda : d ≠ a := by
        intro he; subst he
        exact ha (List.elem_iff.mpr hdn)
      rcases List.mem_cons.mp hd with h4 | h4
      · exact absurd h4 hda
      · simp only [rankIn, if_neg hca, if_neg hda]
        exact Nat.succ_le_succ (h3 d h4 hdn)

/-! ## C1 — extension test -/

/-- C1 counterexample: the name `".a.b"` has a `'.'` at an interior
position (neither first nor last character — the characters strictly
between the ends are `['a', '.']`), yet `has_extension` classifies it as
a directory, because the source also rejects any name *starting* with a
dot.  This falsifies the claim that interior-dot names always classify
as files. -/
theorem c1_counterexample :
    has_extension ".a.b" = false ∧ '.' ∈ ((".a.b".data.drop 1).dropLast) := by
  decide

/-- C1 (amended): a name classifies as "file" iff it contains a `'.'`
character, its first character is not `'.'`, and its last character is
not `'.'`.  (Equivalently: it has an interior dot *and* no dot at either
end; a name such as `".a.b"` or `"a.b."` classifies as directory.) -/
theorem has_extension_iff (name : String) :
    has_extension name = true ↔
      ('.' ∈ name.data ∧ name.data.head? ≠ some '.' ∧ name.data.getLast? ≠ some '.') := by
  simp only [has_extension, Bool.and_eq_true, Bool.not_eq_true']
  constructor
  · rintro ⟨⟨h1, h2⟩, h3⟩
    refine ⟨List.elem_iff.mp h1, ?_, ?_⟩
    · intro hh
      exact absurd ((prefix_dot_iff name.data).mpr hh) (by simp [h3])
    · intro hl
      exact absurd ((suffix_dot_iff name.data).mpr hl) (by simp [h2])
  · rintro ⟨h1, h2, h3⟩
    refine ⟨⟨List.elem_iff.mpr h1, ?_⟩, ?_⟩
    · rcases hs : ['.'].isSuffixOf name.data with _ | _
      · rfl
      · exact absurd ((suffix_dot_iff name.data).mp hs) h3
    · rcases hp : ['.'].isPrefixOf name.data with _ | _
      · rfl
      · exact absurd ((prefix_dot_iff name.data).mp hp) h2


/-- C1 witness: the amended classification at the concrete name
`"a.txt"`. -/
theorem c1_witness :
    has_extension "a.txt" = true ↔
      ('.' ∈ "a.txt".data ∧ "a.txt".data.head? ≠ some '.' ∧
        "a.txt".data.getLast? ≠ some '.') :=
  has_extension_iff "a.txt"

/-! ## C2 — legality test -/

/-- C2 counterexample: in `"a*b<c"` the leftmost reserved character of
the *name* is `'*'` (at index 1), but `is_valid_name` reports `'<'`,
because the loop scans the reserved set `<>:"/\|?*` in *its* order, not
the name.  This falsifies the claim that the leftmost offending
character of the name is reported. -/
theorem c2_counterexample :
    is_valid_name "a*b<c" = (false, some '<') ∧
      "a*b<c".data.find? (fun c => invalid_chars.contains c) = some '*' ∧
      ('<' : Char) ≠ '*' := by
  decide

/-- C2 (amended): the legality test succeeds with no reported character
*exactly* for the names containing none of the reserved characters
`< > : " / \ | ? *`; every name containing at least one reserved
character fails, and the reported character is the reserved character
occurring in the name that comes *first in the reserved-set scan order*
`< > : " / \ | ? *` (not necessarily leftmost in the name). -/
theorem is_valid_name_spec (name : String) :
    (is_valid_name name = (true, none) ↔ ∀ c ∈ invalid_chars, c ∉ name.data) ∧
    ((∃ c ∈ invalid_chars, c ∈ name.data) →
      ∃ r, is_valid_name name = (false, some r) ∧ r ∈ invalid_chars ∧
        r ∈ name.data ∧
        ∀ d ∈ invalid_chars, d ∈ name.data →
          rankIn invalid_chars r ≤ rankIn invalid_chars d) := by
  constructor
  · constructor
    · intro h
      rcases hfi : firstInvalid invalid_chars name with _ | r
      · exact (firstInvalid_eq_none invalid_chars name).mp hfi
      · rw [is_valid_name, hfi] at h
        exact absurd h (by simp)
    · intro h
      rw [is_valid_name, (firstInvalid_eq_none invalid_chars name).mpr h]
  · rintro ⟨c, hc, hcn⟩
    rcases hfi : firstInvalid invalid_chars name with _ | r
    · exact absurd hcn ((firstInvalid_eq_none invalid_chars name).mp hfi c hc)
    · obtain ⟨h1, h2, h3⟩ := firstInvalid_eq_some invalid_chars name r hfi
      exact ⟨r, by rw [is_valid_name, hfi], h1, h2, h3⟩

/-- C2 witness: concrete instances of both halves of
`is_valid_name_spec` — `"ab"` is legal, and `"a:b"` (which contains the
reserved `':'`) fails reporting `':'`. -/
theorem c2_witness :
    is_valid_name "ab" = (true, none) ∧ is_valid_name "a:b" = (false, some ':') := by
  refine ⟨(is_valid_name_spec "ab").1.mpr (by decide), ?_⟩
  obtain ⟨r, hr, hr1, hr2, -⟩ :=
    (is_valid_name_spec "a:b").2 ⟨':', by decide, by decide⟩
  have hre : r = ':' := by
    fin_cases hr1 <;> first | rfl | exact absurd hr2 (by decide)
  rw [hre] at hr
  exact hr

/-! ## C6 — collision -/

/-- C6: for every filesystem, base directory and name that is non-empty
after trimming, if an entry of either kind already exists at the joined
full path, `create_item` fails with the "already exists" outcome and
returns the filesystem state completely unchanged. -/
theorem create_item_collision (fs : FS) (base : FsPath) (name : String)
    (h1 : pyStrip name ≠ "")
    (h2 : existsFS fs (joinPath base (pyStrip name)) = true) :
    create_item fs base name = (fs, false, existsMsg (pyStrip name)) := by
  rw [create_item, if_neg h1]
  simp only [h2, if_true]

/-- C6 witness: `d/x.txt` already exists (as a file), creating `x.txt`
under `d` fails with the collision message and no mutation. -/
theorem c6_witness :
    create_item fsC6 ["d"] "x.txt" = (fsC6, false, existsMsg (pyStrip "x.txt")) :=
  create_item_collision fsC6 ["d"] "x.txt" (by decide) (by decide)

/-! ## C8 — empty name -/

/-- C8: a name that is empty or trims to empty makes `create_item` fail
immediately with the dedicated empty-name outcome; the filesystem state
is returned unchanged and the outcome does not depend on the filesystem
or the base directory at all (no access, not even the existence check). -/
theorem create_item_empty_name (fs fs2 : FS) (base base2 : FsPath) (name : String)
    (h : pyStrip name = "") :
    create_item fs base name = (fs, false, emptyMsg) ∧
      (create_item fs base name).2 = (create_item fs2 base2 name).2 := by
  rw [create_item, if_pos h, create_item, if_pos h]
  exact ⟨rfl, rfl⟩

/-- C8 witness: the whitespace-only name `"  "` at two unrelated
filesystem states. -/
theorem c8_witness :
    create_item fsC6 ["d"] "  " = (fsC6, false, emptyMsg) ∧
      (create_item fsC6 ["d"] "  ").2 = (create_item fsC7 [] "  ").2 :=
  create_item_empty_name fsC6 fsC7 ["d"] [] "  " (by decide)

/-! ## C9 — empty string passes the legality test -/

/-- C9: the legality test accepts the empty string (no reserved character
occurs in it), yet `create_item` rejects the empty name for every
filesystem and base directory — so passing the legality check alone does
not guarantee creatability. -/
theorem is_valid_name_empty_but_uncreatable :
    is_valid_name "" = (true, none) ∧
      ∀ (fs : FS) (base : FsPath),
        (create_item fs base "").2 = (false, emptyMsg) := by
  refine ⟨by decide, ?_⟩
  intro fs base
  rw [create_item, if_pos (by decide : pyStrip "" = "")]

/-! ## Filesystem lemmas -/

/-- Inserting at a different path does not change a lookup. -/
theorem lookupFS_insert_ne (fs : FS) (p q : FsPath) (k : EntryKind) (h : q ≠ p) :
    lookupFS (insertEntry fs q k) p = lookupFS fs p := by
  have hb : ((q, k).1 == p) = false := by
    simp only [beq_eq_false_iff_ne, ne_eq]
    exact h
  simp [lookupFS, insertEntry, List.find?, hb]

/-- Looking up the freshly inserted path yields the inserted kind. -/
theorem lookupFS_insert_self (fs : FS) (p : FsPath) (k : EntryKind) :
    lookupFS (insertEntry fs p k) p = some k := by
  simp [lookupFS, insertEntry, List.find?]

/-- A single mkdir step never disturbs a lookup at a different path. -/
theorem mkdirOne_lookup_ne (fs : FS) (q p : FsPath) (h : q ≠ p) :
    lookupFS (mkdirOne fs q).1 p = lookupFS fs p := by
  unfold mkdirOne
  cases hl : lookupFS fs q with
  | none =>
    cases hd : denyOf fs q with
    | none => simp [hl, hd, lookupFS_insert_ne fs p q EntryKind.dir h]
    | some e => simp [hl, hd]
  | some k => cases k <;> simp [hl]

/-- A failing single mkdir step leaves the state untouched. -/
theorem mkdirOne_err_fst (fs : FS) (q : FsPath) (h : (mkdirOne fs q).2 ≠ none) :
    (mkdirOne fs q).1 = fs := by
  unfold mkdirOne at h ⊢
  cases hl : lookupFS fs q with
  | none =>
    cases hd : denyOf fs q with
    | none => rw [hl, hd] at h; simp at h
    | some e => simp [hl, hd]
  | some k =>
    cases k with
    | dir => rw [hl] at h
    | file => simp [hl]

/-- A single mkdir step never touches the fault table. -/
theorem mkdirOne_deny (fs : FS) (q : FsPath) : (mkdirOne fs q).1.deny = fs.deny := by
  unfold mkdirOne
  cases hl : lookupFS fs q with
  | none =>
    cases hd : denyOf fs q with
    | none => simp [insertEntry]
    | some e => simp
  | some k => cases k <;> simp

/-- A failing touch leaves the state untouched. -/
theorem touchFS_err_fst (fs : FS) (p : FsPath) (h : (touchFS fs p).2 ≠ none) :
    (touchFS fs p).1 = fs := by
  unfold touchFS at h ⊢
  cases hl : lookupFS fs p with
  | none =>
    cases hd : denyOf fs p with
    | none => rw [hl, hd] at h; simp at h
    | some e => simp [hl, hd]
  | some k => rw [hl] at h

/-- Creating a list of directories not containing `p` does not change the
lookup at `p` (whether or not an error stopped the run). -/
theorem mkdirList_lookup_not_mem (ps : List FsPath) (fs : FS) (p : FsPath)
    (hp : p ∉ ps) :
    lookupFS (mkdirList fs ps).1 p = lookupFS fs p := by
  induction ps generalizing fs with
  | nil => rfl
  | cons q rest ih =>
    have hqp : q ≠ p := fun he => hp (he ▸ List.mem_cons_self q rest)
    have hrest : p ∉ rest := fun hm => hp (List.mem_cons_of_mem q hm)
    have hfs1 := mkdirOne_lookup_ne fs q p hqp
    rw [mkdirList]
    rcases hmk : mkdirOne fs q with ⟨fs1, err⟩
    rw [hmk] at hfs1
    cases err with
    | none => rw [← hfs1]; exact ih fs1 hrest
    | some e => exact hfs1

/-- Creating the chain `qs ++ [p]` with `p ∉ qs`: if the run failed, the
lookup at the final target `p` is unchanged (the failure happened at `p`
itself, which mutates nothing, or earlier). -/
theorem mkdirList_err_last (qs : List FsPath) (fs : FS) (p : FsPath)
    (hp : p ∉ qs) (herr : (mkdirList fs (qs ++ [p])).2 ≠ none) :
    lookupFS (mkdirList fs (qs ++ [p])).1 p = lookupFS fs p := by
  induction qs generalizing fs with
  | nil =>
    rw [List.nil_append] at herr ⊢
    rw [mkdirList] at herr ⊢
    rcases hmk : mkdirOne fs p with ⟨fs1, err⟩
    rw [hmk] at herr
    cases err with
    | none =>
      have herr2 : (mkdirList fs1 []).2 ≠ none := herr
      exact absurd rfl herr2
    | some e =>
      have h1 : fs1 = fs := by
        have h2 := mkdirOne_err_fst fs p (by rw [hmk]; simp)
        rw [hmk] at h2
        exact h2
      show lookupFS fs1 p = lookupFS fs p
      rw [h1]
  | cons q rest ih =>
    have hqp : q ≠ p := fun he => hp (he ▸ List.mem_cons_self q rest)
    have hrest : p ∉ rest := fun hm => hp (List.mem_cons_of_mem q hm)
    rw [List.cons_append, mkdirList] at herr ⊢
    have hfs1 := mkdirOne_lookup_ne fs q p hqp
    rcases hmk : mkdirOne fs q with ⟨fs1, err⟩
    rw [hmk] at hfs1 herr
    cases err with
    | none =>
      have herr2 : (mkdirList fs1 (rest ++ [p])).2 ≠ none := herr
      have hgoal : lookupFS (mkdirList fs1 (rest ++ [p])).1 p = lookupFS fs1 p :=
        ih fs1 hrest herr2
      show lookupFS (mkdirList fs1 (rest ++ [p])).1 p = lookupFS fs p
      rw [hgoal, hfs1]
    | some e => exact hfs1

/-- Creating directories never touches the fault table. -/
theorem mkdirList_deny (ps : List FsPath) (fs : FS) :
    (mkdirList fs ps).1.deny = fs.deny := by
  induction ps generalizing fs with
  | nil => rfl
  | cons q rest ih =>
    have hd := mkdirOne_deny fs q
    rw [mkdirList]
    rcases hmk : mkdirOne fs q with ⟨fs1, err⟩
    rw [hmk] at hd
    cases err with
    | none => rw [ih fs1, hd]
    | some e => exact hd

/-- Every ancestor of `p` is strictly shorter than `p`. -/
theorem mem_ancestors_length (p q : FsPath) (h : q ∈ ancestors p) :
    q.length < p.length := by
  unfold ancestors at h
  obtain ⟨i, hi, hq⟩ := List.mem_map.mp h
  subst hq
  have hi2 : i < p.length - 1 := List.mem_range.mp hi
  rw [List.length_take]
  exact lt_of_le_of_lt (Nat.min_le_left _ _) (by omega)

/-- If splitting drops every segment, every character was a separator
(and the accumulator was empty). -/
theorem splitSepsAux_all_sep (l : List Char) (acc : List Char)
    (h : (splitSepsAux l acc).filter (fun seg => !seg.isEmpty) = []) :
    (∀ c ∈ l, isSepChar c = true) ∧ acc = [] := by
  induction l generalizing acc with
  | nil =>
    rw [splitSepsAux] at h
    refine ⟨fun c hc => absurd hc (List.not_mem_nil c), ?_⟩
    rcases hrev : acc.reverse with _ | ⟨x, xs⟩
    · exact List.reverse_eq_nil_iff.mp hrev
    · rw [hrev] at h
      simp [List.filter] at h
  | cons c rest ih =>
    rw [splitSepsAux] at h
    by_cases hc : isSepChar c = true
    · rw [if_pos hc] at h
      rcases hrev : acc.reverse with _ | ⟨x, xs⟩
      · rw [hrev] at h
        have h2 : (splitSepsAux rest []).filter (fun seg => !seg.isEmpty) = [] := by
          simpa [List.filter_cons] using h
        obtain ⟨hall, -⟩ := ih [] h2
        refine ⟨fun d hd => ?_, List.reverse_eq_nil_iff.mp hrev⟩
        rcases List.mem_cons.mp hd with h1 | h1
        · subst h1; exact hc
        · exact hall d h1
      · rw [hrev] at h
        simp [List.filter_cons] at h
    · rw [if_neg hc] at h
      obtain ⟨-, hacc⟩ := ih (c :: acc) h
      exact absurd hacc (by simp)

/-- A name containing a dot has at least one component. -/
theorem parseName_ne_nil_of_dot (s : String) (h : '.' ∈ s.data) :
    parseName s ≠ [] := by
  intro hp
  unfold parseName at hp
  have hfil : (splitSepsAux s.data []).filter (fun seg => !seg.isEmpty) = [] :=
    List.map_eq_nil_iff.mp hp
  obtain ⟨hall, -⟩ := splitSepsAux_all_sep s.data [] hfil
  have := hall '.' h
  simp [isSepChar] at this

/-- A name the extension test accepts contains a dot. -/
theorem has_extension_dot_mem (s : String) (h : has_extension s = true) :
    '.' ∈ s.data := by
  rw [has_extension] at h
  have h1 : s.data.contains '.' = true := by
    rcases Bool.and_eq_true_iff.mp h with ⟨h2, -⟩
    rcases Bool.and_eq_true_iff.mp h2 with ⟨h3, -⟩
    exact h3
  exact List.elem_iff.mp h1

/-! ## C7 — atomicity of creation -/

/-- C7 counterexample: on the empty filesystem where creating `a/b.txt`
raises `PermissionError` (but creating `a` succeeds),
`create_item [] "a/b.txt"` returns a failure outcome yet the filesystem
state has changed — the freshly created intermediate directory `a`
remains.  This falsifies the claim that every failing invocation leaves
the state exactly as before. -/
theorem c7_counterexample :
    (create_item fsC7 [] "a/b.txt").2.1 = false ∧
      (create_item fsC7 [] "a/b.txt").1 ≠ fsC7 := by
  decide

/-- C7 (amended): a failing `create_item` never creates the leaf entry
itself, and the two failures detected *before* any mutation — empty name
and collision — leave the filesystem state completely unchanged; but a
permission or unclassified failure raised mid-creation may leave newly
created intermediate parent directories behind (see the counterexample). -/
theorem create_item_failure_no_leaf (fs : FS) (base : FsPath) (name : String) :
    (pyStrip name = "" → create_item fs base name = (fs, false, emptyMsg)) ∧
    (pyStrip name ≠ "" → existsFS fs (joinPath base (pyStrip name)) = true →
      (create_item fs base name).1 = fs) ∧
    ((create_item fs base name).2.1 = false →
      lookupFS (create_item fs base name).1 (joinPath base (pyStrip name)) =
        lookupFS fs (joinPath base (pyStrip name))) := by
  refine ⟨?_, ?_, ?_⟩
  · intro h
    rw [create_item, if_pos h]
  · intro h1 h2
    rw [create_item, if_neg h1]
    simp only [h2, if_true]
  · by_cases h1 : pyStrip name = ""
    · rw [create_item, if_pos h1]
      intro _
      rfl
    · rw [create_item, if_neg h1]
      by_cases h2 : existsFS fs (joinPath base (pyStrip name)) = true
      · simp only [h2, if_true]
        intro _
        trivial
      · rw [if_neg h2]
        by_cases h3 : has_extension (pyStrip name) = true
        · simp only [h3, if_true]
          have hdot : '.' ∈ (pyStrip name).data := has_extension_dot_mem _ h3
          have hpn : parseName (pyStrip name) ≠ [] := parseName_ne_nil_of_dot _ hdot
          have hfull : joinPath base (pyStrip name) ≠ [] := by
            intro hc
            rcases List.append_eq_nil.mp hc with ⟨-, h5⟩
            exact hpn h5
          set full := joinPath base (pyStrip name) with hfulldef
          have hlen : 0 < full.length := List.length_pos.mpr hfull
          have hdl : full.dropLast.length = full.length - 1 := List.length_dropLast full
          have hnot : full ∉ ancestors full.dropLast ++ [full.dropLast] := by
            intro hmem
            rcases List.mem_append.mp hmem with hm | hm
            · have := mem_ancestors_length _ _ hm
              omega
            · have h7 : full = full.dropLast := by simpa using hm
              have h8 : full.length = full.length - 1 := by
                conv_lhs => rw [h7]
                exact hdl
              omega
          have hkey : lookupFS (mkdirParents fs full.dropLast).1 full = lookupFS fs full :=
            mkdirList_lookup_not_mem (ancestors full.dropLast ++ [full.dropLast]) fs full hnot
          intro hfail
          cases hmk : (mkdirParents fs full.dropLast).2 with
          | none =>
            cases htc : (touchFS (mkdirParents fs full.dropLast).1 full).2 with
            | none => simp [hmk, htc] at hfail
            | some e2 =>
              have h9 : (touchFS (mkdirParents fs full.dropLast).1 full).1 =
                  (mkdirParents fs full.dropLast).1 :=
                touchFS_err_fst _ _ (by rw [htc]; simp)
              show lookupFS (touchFS (mkdirParents fs full.dropLast).1 full).1 full =
                lookupFS fs full
              rw [h9, hkey]
          | some e =>
            show lookupFS (mkdirParents fs full.dropLast).1 full = lookupFS fs full
            exact hkey
        · rw [if_neg h3]
          set full := joinPath base (pyStrip name) with hfulldef
          have hnotanc : full ∉ ancestors full := fun hm =>
            absurd (mem_ancestors_length full full hm) (lt_irrefl _)
          intro hfail
          cases hmk : (mkdirParents fs full).2 with
          | none => simp [hmk] at hfail
          | some e =>
            have herr : (mkdirList fs (ancestors full ++ [full])).2 ≠ none := by
              rw [show mkdirList fs (ancestors full ++ [full]) =
                mkdirParents fs full from rfl, hmk]
              simp
            have h10 := mkdirList_err_last (ancestors full) fs full hnotanc herr
            rw [show mkdirList fs (ancestors full ++ [full]) =
              mkdirParents fs full from rfl] at h10
            show lookupFS (mkdirParents fs full).1 full = lookupFS fs full
            exact h10

/-- C7 witness: the empty-name clause at a concrete state, and the
leaf-lookup clause at the counterexample state (the failing creation of
`a/b.txt` does not create the leaf `a/b.txt`). -/
theorem c7_witness :
    create_item fsFree ["d"] " " = (fsFree, false, emptyMsg) ∧
      lookupFS (create_item fsC7 [] "a/b.txt").1 (joinPath [] (pyStrip "a/b.txt")) =
        lookupFS fsC7 (joinPath [] (pyStrip "a/b.txt")) :=
  ⟨(create_item_failure_no_leaf fsFree ["d"] " ").1 (by decide),
   (create_item_failure_no_leaf fsC7 [] "a/b.txt").2.2 (by decide)⟩

/-- Creating a chain of directories that are each either absent (and not
denied) or already directories succeeds, makes every chain member a
directory, and changes nothing else. -/
theorem mkdirList_good (ps : List FsPath) (fs : FS)
    (h : ∀ q ∈ ps, lookupFS fs q ≠ some EntryKind.file ∧ denyOf fs q = none) :
    (mkdirList fs ps).2 = none ∧
      (∀ q ∈ ps, lookupFS (mkdirList fs ps).1 q = some EntryKind.dir) ∧
      (∀ p, p ∉ ps → lookupFS (mkdirList fs ps).1 p = lookupFS fs p) ∧
      (mkdirList fs ps).1.deny = fs.deny := by
  induction ps generalizing fs with
  | nil =>
    exact ⟨rfl, fun q hq => absurd hq (List.not_mem_nil q), fun p _ => rfl, rfl⟩
  | cons a rest ih =>
    obtain ⟨ha1, ha2⟩ := h a (List.mem_cons_self a rest)
    cases hl : lookupFS fs a with
    | some k =>
      cases k with
      | file => exact absurd hl ha1
      | dir =>
        have hstep : mkdirOne fs a = (fs, none) := by rw [mkdirOne, hl]
        have hred : mkdirList fs (a :: rest) = mkdirList fs rest := by
          rw [mkdirList, hstep]
        have hrec := ih fs (fun q hq => h q (List.mem_cons_of_mem a hq))
        refine ⟨by rw [hred]; exact hrec.1, ?_, ?_, by rw [hred]; exact hrec.2.2.2⟩
        · intro q hq
          rcases List.mem_cons.mp hq with h1 | h1
          · by_cases hmem : q ∈ rest
            · rw [hred]; exact hrec.2.1 q hmem
            · rw [hred, hrec.2.2.1 q hmem, h1]
              exact hl
          · rw [hred]; exact hrec.2.1 q h1
        · intro p hp
          have hpr : p ∉ rest := fun hm => hp (List.mem_cons_of_mem a hm)
          rw [hred]; exact hrec.2.2.1 p hpr
    | none =>
      cases hd : denyOf fs a with
      | some e => simp [ha2] at hd
      | none =>
        have hstep : mkdirOne fs a = (insertEntry fs a EntryKind.dir, none) := by
          rw [mkdirOne, hl, hd]
        have hred : mkdirList fs (a :: rest) =
            mkdirList (insertEntry fs a EntryKind.dir) rest := by
          rw [mkdirList, hstep]
        have htrans : ∀ q ∈ rest,
            lookupFS (insertEntry fs a EntryKind.dir) q ≠ some EntryKind.file ∧
              denyOf (insertEntry fs a EntryKind.dir) q = none := by
          intro q hq
          obtain ⟨hq1, hq2⟩ := h q (List.mem_cons_of_mem a hq)
          constructor
          · by_cases hqa : a = q
            · subst hqa
              rw [lookupFS_insert_self]
              simp
            · rw [lookupFS_insert_ne fs q a EntryKind.dir hqa]
              exact hq1
          · exact hq2
        have hrec := ih (insertEntry fs a EntryKind.dir) htrans
        refine ⟨by rw [hred]; exact hrec.1, ?_, ?_, ?_⟩
        · intro q hq
          rcases List.mem_cons.mp hq with h1 | h1
          · by_cases hmem : q ∈ rest
            · rw [hred]; exact hrec.2.1 q hmem
            · rw [hred, hrec.2.2.1 q hmem, h1]
              exact lookupFS_insert_self fs a EntryKind.dir
          · rw [hred]; exact hrec.2.1 q h1
        · intro p hp
          have hpa : a ≠ p := fun he => hp (he ▸ List.mem_cons_self a rest)
          have hpr : p ∉ rest := fun hm => hp (List.mem_cons_of_mem a hm)
          rw [hred, hrec.2.2.1 p hpr]
          exact lookupFS_insert_ne fs p a EntryKind.dir hpa
        · rw [hred, hrec.2.2.2]
          rfl

/-- For a path of length at least two, the ancestor chain is the ancestor
chain of its parent followed by the parent itself. -/
theorem ancestors_dropLast (p : FsPath) (h2 : 2 ≤ p.length) :
    ancestors p = ancestors p.dropLast ++ [p.dropLast] := by
  unfold ancestors
  have hdl : p.dropLast.length = p.length - 1 := List.length_dropLast p
  rw [hdl]
  have h3 : p.length - 1 = (p.length - 2) + 1 := by omega
  rw [h3, List.range_succ, List.map_append]
  have h4 : p.length - 2 + 1 - 1 = p.length - 2 := by omega
  congr 1
  · rw [h4]
    apply List.map_congr_left
    intro i hi
    have hi2 : i < p.length - 2 := List.mem_range.mp hi
    rw [List.dropLast_eq_take, List.take_take]
    have h5 : min (i + 1) (p.length - 1) = i + 1 := by omega
    rw [h5]
  · simp only [List.map_cons, List.map_nil]
    rw [List.dropLast_eq_take]
    have h6 : p.length - 2 + 1 = p.length - 1 := by omega
    rw [h6]

/-! ## C10 — multi-level creation -/

/-- C10 counterexample: the name `"a/b.txt"` contains a path separator
and the joined full path `a/b.txt` does not exist, yet `create_item`
fails, because the intermediate component `a` exists as a *file* and the
parent-directory creation raises.  This falsifies the claim that create
succeeds for every separator-containing name whose full path is absent. -/
theorem c10_counterexample :
    existsFS fsC10 (joinPath [] (pyStrip "a/b.txt")) = false ∧
      (create_item fsC10 [] "a/b.txt").2.1 = false := by
  decide

/-- C10 (amended): `create_item` performs no legality re-check, so a
name containing a path separator is accepted, and — provided every
intermediate component is absent or already a directory and no creation
on the chain or the leaf is denied — the call succeeds, creates every
missing intermediate directory along the path, and creates the leaf
entry (an empty file when the full name passes the extension test, a
directory otherwise). -/
theorem create_item_multilevel (fs : FS) (base : FsPath) (name : String)
    (_hsep : (pyStrip name).data.any isSepChar = true)
    (h0 : pyStrip name ≠ "")
    (hfull : lookupFS fs (joinPath base (pyStrip name)) = none)
    (hdeny : denyOf fs (joinPath base (pyStrip name)) = none)
    (hanc : ∀ q, (q ∈ ancestors (joinPath base (pyStrip name)) ∨
        q = (joinPath base (pyStrip name)).dropLast) →
      lookupFS fs q ≠ some EntryKind.file ∧ denyOf fs q = none) :
    (create_item fs base name).2.1 = true ∧
      lookupFS (create_item fs base name).1 (joinPath base (pyStrip name)) =
        some (if has_extension (pyStrip name) then EntryKind.file else EntryKind.dir) ∧
      ∀ q ∈ ancestors (joinPath base (pyStrip name)),
        lookupFS (create_item fs base name).1 q = some EntryKind.dir := by
  rw [create_item, if_neg h0]
  have hexn : ¬ existsFS fs (joinPath base (pyStrip name)) = true := by
    rw [existsFS, hfull]
    simp
  rw [if_neg hexn]
  set full := joinPath base (pyStrip name) with hfulldef
  by_cases h3 : has_extension (pyStrip name) = true
  · simp only [h3, if_true]
    have hdot := has_extension_dot_mem _ h3
    have hpn := parseName_ne_nil_of_dot _ hdot
    have hfne : full ≠ [] := by
      intro hc
      rcases List.append_eq_nil.mp hc with ⟨-, h5⟩
      exact hpn h5
    have hlen : 0 < full.length := List.length_pos.mpr hfne
    have hdl : full.dropLast.length = full.length - 1 := List.length_dropLast full
    have hchain : ∀ q ∈ ancestors full.dropLast ++ [full.dropLast],
        lookupFS fs q ≠ some EntryKind.file ∧ denyOf fs q = none := by
      intro q hq
      rcases List.mem_append.mp hq with hm | hm
      · apply hanc
        left
        by_cases hn2 : 2 ≤ full.length
        · rw [ancestors_dropLast full hn2]
          exact List.mem_append_left _ hm
        · exfalso
          have h9 : full.dropLast.length = 0 := by omega
          have hnil : full.dropLast = [] := List.length_eq_zero.mp h9
          rw [hnil] at hm
          have h12 := mem_ancestors_length [] q hm
          simp at h12
      · have hq2 : q = full.dropLast := by simpa using hm
        exact hanc q (Or.inr hq2)
    have hgood := mkdirList_good (ancestors full.dropLast ++ [full.dropLast]) fs hchain
    have hmk : (mkdirParents fs full.dropLast).2 = none := hgood.1
    have hnotin : full ∉ ancestors full.dropLast ++ [full.dropLast] := by
      intro hmem
      rcases List.mem_append.mp hmem with hm | hm
      · have := mem_ancestors_length _ _ hm
        omega
      · have h7 : full = full.dropLast := by simpa using hm
        have h8 : full.length = full.length - 1 := by
          conv_lhs => rw [h7]
          exact hdl
        omega
    have hlk1 : lookupFS (mkdirParents fs full.dropLast).1 full = none :=
      (hgood.2.2.1 full hnotin).trans hfull
    have hdeny1 : denyOf (mkdirParents fs full.dropLast).1 full = none := by
      show ((mkdirList fs (ancestors full.dropLast ++ [full.dropLast])).1.deny.find?
        (fun e => e.1 == full)).map (fun e => e.2) = none
      rw [hgood.2.2.2]
      exact hdeny
    have htc : touchFS (mkdirParents fs full.dropLast).1 full =
        (insertEntry (mkdirParents fs full.dropLast).1 full EntryKind.file, none) := by
      rw [touchFS, hlk1, hdeny1]
    have htc2 : (touchFS (mkdirParents fs full.dropLast).1 full).2 = none := by rw [htc]
    refine ⟨by simp only [hmk, htc2], ?_, ?_⟩
    · simp only [hmk, htc2, h3, if_true]
      rw [show (touchFS (mkdirParents fs full.dropLast).1 full).1 =
        insertEntry (mkdirParents fs full.dropLast).1 full EntryKind.file from by rw [htc]]
      exact lookupFS_insert_self _ _ _
    · intro q hq
      simp only [hmk, htc2]
      have hqfull : q ≠ full := by
        have h9 := mem_ancestors_length full q hq
        intro he
        rw [he] at h9
        omega
      have hqchain : q ∈ ancestors full.dropLast ++ [full.dropLast] := by
        by_cases hn2 : 2 ≤ full.length
        · rw [ancestors_dropLast full hn2] at hq
          exact hq
        · exfalso
          have h9 : ancestors full = [] := by
            unfold ancestors
            have h10 : full.length - 1 = 0 := by omega
            rw [h10]
            rfl
          rw [h9] at hq
          exact absurd hq (List.not_mem_nil q)
      rw [show (touchFS (mkdirParents fs full.dropLast).1 full).1 =
        insertEntry (mkdirParents fs full.dropLast).1 full EntryKind.file from by rw [htc]]
      rw [lookupFS_insert_ne _ q full EntryKind.file (Ne.symm hqfull)]
      exact hgood.2.1 q hqchain
  · rw [if_neg h3]
    have hchain : ∀ q ∈ ancestors full ++ [full],
        lookupFS fs q ≠ some EntryKind.file ∧ denyOf fs q = none := by
      intro q hq
      rcases List.mem_append.mp hq with hm | hm
      · exact hanc q (Or.inl hm)
      · have hq2 : q = full := by simpa using hm
        subst hq2
        exact ⟨by rw [hfull]; simp, hdeny⟩
    have hgood := mkdirList_good (ancestors full ++ [full]) fs hchain
    have hmk : (mkdirParents fs full).2 = none := hgood.1
    have hfe : has_extension (pyStrip name) = false := by
      revert h3
      cases has_extension (pyStrip name) <;> simp
    refine ⟨by simp only [hmk], ?_, ?_⟩
    · simp only [hmk, hfe, Bool.false_eq_true, if_false]
      exact hgood.2.1 full (List.mem_append_right _ (by simp))
    · intro q hq
      simp only [hmk]
      exact hgood.2.1 q (List.mem_append_left _ hq)

/-- C10 witness: on the empty unfaulted filesystem, creating `a/b.txt`
directly succeeds, creating the intermediate directory `a` and the leaf
file `a/b.txt`. -/
theorem c10_witness :
    (create_item fsFree [] "a/b.txt").2.1 = true ∧
      lookupFS (create_item fsFree [] "a/b.txt").1 (joinPath [] (pyStrip "a/b.txt")) =
        some (if has_extension (pyStrip "a/b.txt") then EntryKind.file else EntryKind.dir) :=
  have h := create_item_multilevel fsFree [] "a/b.txt" (by decide) (by decide) rfl rfl
    (fun q _ => ⟨fun hcon => Option.noConfusion hcon, rfl⟩)
  ⟨h.1, h.2.1⟩

/-! ## Resolver lemmas -/

/-- When the shell-window collection is available, the step-3 loop
returns exactly the first handle's location found by the scan. -/
theorem step3Loop_eq_findSome (env : Env) (ws : List ShellWindow)
    (hws : env.shellWindows = Except.ok ws) (hs : List Nat) :
    step3Loop env hs = Except.ok (hs.findSome? (findLocation ws)) := by
  induction hs with
  | nil => rfl
  | cons h t ih =>
    rw [step3Loop, hws, List.findSome?_cons]
    cases hfl : findLocation ws h with
    | some l => simp [hfl]
    | none => simp [hfl, ih]


/-- Evaluating the resolver body once the foreground-process query has
succeeded with `path`. -/
theorem explorerBody_ok (env : Env) (path : String)
    (hp : env.processPathOf env.foreground = Except.ok path) :
    explorerBody env =
      if explorerSub path then
        match env.shellWindows with
        | Except.error e => Except.error e
        | Except.ok ws =>
          match findLocation ws env.foreground with
          | some l => Except.ok (some l)
          | none => step3Scan env
      else step3Scan env := by
  rw [explorerBody, hp]

/-- Evaluating the resolver body once the foreground-process query has
raised. -/
theorem explorerBody_err (env : Env) (e : Unit)
    (hp : env.processPathOf env.foreground = Except.error e) :
    explorerBody env = Except.error e := by
  rw [explorerBody, hp]

/-! ## C3 — error handling in the resolver -/

/-- C3 counterexample: in `envC3` the foreground-process query raises,
and a background explorer window with a resolvable location exists
(`step3Scan envC3` would return `C:\x`), yet `get_explorer_path`
returns nothing: the single outer exception handler aborts the whole
resolution, so step 3 is *not* attempted after an error in steps 1–2. -/
theorem c3_counterexample :
    get_explorer_path envC3 = none ∧ step3Scan envC3 = Except.ok (some "C:\\x") := by
  exact ⟨rfl, rfl⟩

/-- C3 (amended): a platform/COM error raised at any step is caught by
the single `try/except` wrapping the whole resolver, which then returns
nothing immediately — later steps are *not* attempted: an error in the
foreground-process query aborts resolution, and so does an error from
the shell-window collection. -/
theorem resolver_error_aborts (env : Env) :
    (env.processPathOf env.foreground = Except.error () →
      get_explorer_path env = none) ∧
    (env.shellWindows = Except.error () → get_explorer_path env = none) := by
  constructor
  · intro h
    rw [get_explorer_path, explorerBody_err env () h]
  · intro h
    cases hp : env.processPathOf env.foreground with
    | error e => rw [get_explorer_path, explorerBody_err env e hp]
    | ok path =>
      rw [get_explorer_path, explorerBody_ok env path hp]
      by_cases hsub : explorerSub path = true
      · rw [if_pos hsub, h]
      · rw [if_neg hsub, step3Scan]
        cases hws : get_all_explorer_windows env with
        | nil => rfl
        | cons a t => rw [step3Loop, h]

/-- C3 witness: the two abort clauses at the concrete environments
`envC3` (foreground query raises) and `envC3b` (shell collection
raises). -/
theorem c3_witness :
    get_explorer_path envC3 = none ∧ get_explorer_path envC3b = none :=
  ⟨(resolver_error_aborts envC3).1 rfl, (resolver_error_aborts envC3b).2 rfl⟩

/-! ## C4 — background file-manager fallback -/

/-- C4: when the foreground window's process path is obtained without
error and is not the file manager, the shell-window collection is
available, and the scan over all explorer-class windows finds a first
location, the resolver returns exactly that location (not nothing, not
the default). -/
theorem resolver_background_fallback (env : Env) (p : String)
    (ws : List ShellWindow) (loc : String)
    (h1 : env.processPathOf env.foreground = Except.ok p)
    (h2 : explorerSub p = false)
    (h3 : env.shellWindows = Except.ok ws)
    (h4 : (get_all_explorer_windows env).findSome? (findLocation ws) = some loc) :
    get_explorer_path env = some loc := by
  rw [get_explorer_path, explorerBody_ok env p h1]
  rw [if_neg (by rw [h2]; simp)]
  rw [step3Scan, step3Loop_eq_findSome env ws h3, h4]

/-- C4 witness: in `envC4` the foreground belongs to `other.exe`, one
background `CabinetWClass` window (handle 2) exists with location
`file:///C:/Users/u/Docs`; the resolver returns the decoded,
backslash-normalized location. -/
theorem c4_witness : get_explorer_path envC4 = some "C:\\Users\\u\\Docs" :=
  resolver_background_fallback envC4 "C:\\apps\\other.exe"
    [⟨2, "file:///C:/Users/u/Docs"⟩] "C:\\Users\\u\\Docs" rfl rfl rfl rfl

/-! ## C5 — default fallback to the desktop -/

/-- C5: (1) in an environment with zero file-manager windows — no
explorer-class top-level window, and no shell-collection entry matching
the foreground window — the resolver returns nothing and the caller
returns the desktop path (home joined with `Desktop`); (2) whenever the
resolver returns nothing, the caller returns the desktop path; (3)
whenever the resolver returns a path that is empty or not an existing
directory, the caller returns the desktop path. -/
theorem resolver_default_desktop :
    (∀ env : Env, get_all_explorer_windows env = [] →
      (∀ ws, env.shellWindows = Except.ok ws →
        findLocation ws env.foreground = none) →
      get_explorer_path env = none ∧
        get_current_path env = get_desktop_path env.home) ∧
    (∀ env : Env, get_explorer_path env = none →
      get_current_path env = get_desktop_path env.home) ∧
    (∀ (env : Env) (p : String), get_explorer_path env = some p →
      (p = "" ∨ env.isdir p = false) →
      get_current_path env = get_desktop_path env.home) := by
  refine ⟨?_, ?_, ?_⟩
  · intro env hwin hfl
    have hnone : get_explorer_path env = none := by
      cases hp : env.processPathOf env.foreground with
      | error e => rw [get_explorer_path, explorerBody_err env e hp]
      | ok path =>
        rw [get_explorer_path, explorerBody_ok env path hp]
        by_cases hsub : explorerSub path = true
        · rw [if_pos hsub]
          cases hws : env.shellWindows with
          | error e => rfl
          | ok ws =>
            simp only [hfl ws hws, step3Scan, hwin]
            rfl
        · rw [if_neg hsub, step3Scan, hwin]
          rfl
    refine ⟨hnone, ?_⟩
    rw [get_current_path, hnone]
  · intro env hnone
    rw [get_current_path, hnone]
  · intro env p hsome hbad
    rw [get_current_path, hsome]
    rcases hbad with hb | hb
    · subst hb
      simp
    · simp [hb]

/-- C5 witness: `envC5` has no explorer-class windows and an empty
shell collection; the resolver yields nothing and the caller returns
the desktop path under the configured home directory. -/
theorem c5_witness :
    get_explorer_path envC5 = none ∧
      get_current_path envC5 = get_desktop_path envC5.home :=
  resolver_default_desktop.1 envC5 rfl
    (fun ws h => by
      injection h with h2
      rw [← h2]
      rfl)

/-- C9 witness: the empty name is rejected by `create_item` at a
concrete filesystem and base even though it passes the legality test. -/
theorem c9_witness : (create_item fsFree ["d"] "").2 = (false, emptyMsg) :=
  is_valid_name_empty_but_uncreatable.2 fsFree ["d"]
